import Mathlib

/-!
Shallow embedding of the persistence / synchronization layer of
`src/app.py` (a Streamlit task board backed by CSV with optional GitHub
mirroring), together with theorems settling the frozen claims about it.

Conventions:
* pandas `Timestamp` cells of the date columns are modelled as
  `Option DateTime` (`none` = `NaT`);
* Python `str.strip` is modelled by `pyStrip` (drop leading/trailing
  whitespace of the character list);
* `st.secrets` is modelled by the `Secrets` structure (`none` = key absent);
* HTTP traffic of `save_to_github_file` is modelled by a `GetResult`
  (status + parsed `sha` field of the JSON body) and a function
  `puts : Nat → Nat` giving the status of the n-th PUT attempt; the
  embedding records which PUT requests were issued (with which `sha`
  condition) and which sleeps occurred, so that retry behaviour is visible.
-/

/-- Broken-down timestamp, the embedding of a (timezone-fixed, JST)
`pandas.Timestamp` as produced by `now_jst()`. -/
structure DateTime where
  year : Nat
  month : Nat
  day : Nat
  hour : Nat
  minute : Nat
  second : Nat
deriving DecidableEq, Repr

/-- Zero-padded two-digit rendering used by `strftime`. -/
def pad2 (n : Nat) : String :=
  if n < 10 then "0" ++ toString n else toString n

/-- `strftime("%Y-%m-%d")`. -/
def fmtDate (t : DateTime) : String :=
  toString t.year ++ "-" ++ pad2 t.month ++ "-" ++ pad2 t.day

/-- `strftime("%Y-%m-%d %H:%M:%S")`. -/
def fmtDateTime (t : DateTime) : String :=
  fmtDate t ++ " " ++ pad2 t.hour ++ ":" ++ pad2 t.minute ++ ":" ++ pad2 t.second

/-- Embedding of Python `str.strip()` (no argument): drop leading and
trailing whitespace. -/
def pyStrip (s : String) : String :=
  String.mk ((((s.data.dropWhile Char.isWhitespace).reverse).dropWhile
      Char.isWhitespace).reverse)

/-- `format_ts` of `app.py` (lines 202-210): `NaT` is replaced by "now",
then the value is rendered with or without the time-of-day part depending
on the `SAVE_WITH_TIME` flag. -/
def format_ts (saveWithTime : Bool) (now : DateTime) (cell : Option DateTime) : String :=
  let dt := cell.getD now
  if saveWithTime then fmtDateTime dt else fmtDate dt

/-- One row of the task table.  Field names translate the Japanese column
names of `MANDATORY_COLS`: `created` = 起票日, `updated` = 更新日,
`task` = タスク, `status` = 対応状況, `owner` = 更新者,
`nextAction` = 次アクション, `notes` = 備考, `source` = ソース. -/
structure TaskRow where
  id : String
  created : Option DateTime
  updated : Option DateTime
  task : String
  status : String
  owner : String
  nextAction : String
  notes : String
  source : String
deriving DecidableEq, Repr

/-- Per-row action of `safety_autofill_all` (lines 190-200): a date cell
that fails to parse (`NaT`, i.e. `none`) becomes "now"; a parseable cell
is kept. -/
def autofillTask (now : DateTime) (t : TaskRow) : TaskRow :=
  { t with
    created := some (t.created.getD now)
    updated := some (t.updated.getD now) }

/-- `safety_autofill_all` (lines 190-200) applied to the whole table. -/
def safety_autofill_all (now : DateTime) (df : List TaskRow) : List TaskRow :=
  df.map (autofillTask now)

/-- The list of cell strings one task contributes to the CSV written by
`save_tasks` (lines 225-230): the date columns go through `format_ts`,
every other column is passed to `to_csv` unchanged. -/
def taskRowOut (saveWithTime : Bool) (now : DateTime) (t : TaskRow) : List String :=
  [t.id, format_ts saveWithTime now t.created, format_ts saveWithTime now t.updated,
   t.task, t.status, t.owner, t.nextAction, t.notes, t.source]

/-- Cell contents of the file written by `save_tasks` (lines 225-230):
apply the safety autofill, format the two date columns, write all rows. -/
def save_tasks (saveWithTime : Bool) (now : DateTime) (df : List TaskRow) :
    List (List String) :=
  (safety_autofill_all now df).map (taskRowOut saveWithTime now)

/-- File-system operations observable from the local save path. -/
inductive FileOp where
  | openWrite (path : String)
  | fsync (path : String)
  | rename (src dst : String)
deriving DecidableEq, Repr

/-- The file-system trace of `save_tasks` (line 230): a single direct
`to_csv(CSV_PATH, ...)`, i.e. one in-place open-and-write of the
destination path. -/
def save_tasks_fileTrace (csvPath : String) : List FileOp :=
  [FileOp.openWrite csvPath]

/-- Spec-side predicate (section 4.1 of the specification): does the
string begin with a spreadsheet formula-trigger character
(`/^[=+\\-@]/`)? -/
def startsFormulaTrigger (s : String) : Bool :=
  match s.data with
  | [] => false
  | c :: _ => c == '=' || c == '+' || c == '-' || c == '@' 

/-- Relevant entries of `st.secrets` (`none` = key not set). -/
structure Secrets where
  githubToken : Option String
  githubOwner : Option String
  githubRepo : Option String
  githubBranch : Option String
  githubPath : Option String
  githubPathAudit : Option String
deriving DecidableEq, Repr

/-- `missing = [k for k in required_keys if k not in st.secrets]`
(lines 236-237). -/
def missingKeys (s : Secrets) : List String :=
  (if s.githubToken.isSome then [] else ["GITHUB_TOKEN"]) ++
  (if s.githubOwner.isSome then [] else ["GITHUB_OWNER"]) ++
  (if s.githubRepo.isSome then [] else ["GITHUB_REPO"])

/-- Outcome of the GET on the contents URL: HTTP status plus the `sha`
field of the parsed JSON body (`none` = field absent). -/
structure GetResult where
  status : Nat
  shaField : Option String
deriving DecidableEq, Repr

/-- Observable behaviour of one `save_to_github_file` call: its boolean
result, the `sha` condition of each PUT request actually issued (in
order), and every sleep performed (seconds). -/
structure SyncResult where
  ok : Bool
  putShas : List (Option String)
  sleeps : List Nat
deriving DecidableEq, Repr

/-- `latest_sha = r.json().get("sha") if r.status_code == 200 else None`
followed by the Python-truthiness test `if latest_sha:` (lines 259,
271-272): the PUT carries a `sha` exactly when the GET returned 200 and
its body held a non-empty `sha`. -/
def githubLatestSha (g : GetResult) : Option String :=
  if g.status == 200 then
    match g.shaField with
    | some sh => if sh == "" then none else some sh
    | none => none
  else none

/-- `save_to_github_file` (lines 235-297).  `puts n` is the HTTP status
of the n-th PUT attempt; the code issues exactly one PUT (status
`puts 0`), succeeds on 200/201 and fails on everything else (422, 401,
403, 404, 429, other) without sleeping or retrying. -/
def save_to_github_file (s : Secrets) (g : GetResult) (puts : Nat → Nat) :
    SyncResult :=
  if missingKeys s ≠ [] then
    { ok := false, putShas := [], sleeps := [] }
  else
    let latest_sha := githubLatestSha g
    let putStatus := puts 0
    { ok := putStatus == 200 || putStatus == 201
      putShas := [latest_sha]
      sleeps := [] }

/-- `save_to_github_csv` (lines 299-304): `if not remote:` is Python
truthiness, so an absent or empty `GITHUB_PATH` reports failure. -/
def save_to_github_csv (s : Secrets) (g : GetResult) (puts : Nat → Nat) :
    SyncResult :=
  if s.githubPath.getD "" == "" then
    { ok := false, putShas := [], sleeps := [] }
  else
    save_to_github_file s g puts

/-- `save_audit_to_github` (lines 306-310): an absent or empty
`GITHUB_PATH_AUDIT` is a no-op success. -/
def save_audit_to_github (s : Secrets) (g : GetResult) (puts : Nat → Nat) :
    Bool :=
  if s.githubPathAudit.getD "" == "" then true
  else (save_to_github_file s g puts).ok

/-- One row of `audit.csv` (`write_audit`, lines 315-330). -/
structure AuditRec where
  ts : String
  user : String
  action : String
  taskId : String
  before : String
  after : String
deriving DecidableEq, Repr

/-- The record `write_audit` builds (lines 316-323): the `ts` field uses
`strftime("%Y-%m-%d %H:%M:%S")` unconditionally, and a falsy
before/after snapshot becomes the empty string. -/
def auditRecFor (now : DateTime) (user action taskId : String)
    (before after : Option String) : AuditRec :=
  { ts := fmtDateTime now
    user := user
    action := action
    taskId := taskId
    before := before.getD ""
    after := after.getD "" }

/-- `write_audit` (lines 315-330): read the existing log (or start
empty), concatenate the one new record, write back. -/
def write_audit (now : DateTime) (user action taskId : String)
    (before after : Option String) (log : List AuditRec) : List AuditRec :=
  log ++ [auditRecFor now user action taskId before after]

/-- String rendering of a row snapshot, modelling Python `str(dict)` as
used for the `before`/`after` cells of an audit record. -/
def snapshotStr (t : TaskRow) : String :=
  t.task ++ "|" ++ t.status ++ "|" ++ t.owner ++ "|" ++ t.nextAction ++ "|" ++
    t.notes ++ "|" ++ t.source

/-- In-memory state the UI handlers act on: the persisted task table and
the persisted audit log. -/
structure AppState where
  tasks : List TaskRow
  audit : List AuditRec
deriving DecidableEq, Repr

/-- Observable outcome of one mutating handler. -/
structure OpOutcome where
  state : AppState
  localSaved : Bool
  remoteAttempted : Bool
  ok : Bool
  validationError : Bool
deriving DecidableEq, Repr

/-- Embedding of Python `str.upper()` (ASCII case folding, applied
character by character). -/
def pyUpper (s : String) : String :=
  String.mk (s.data.map Char.toUpper)

/-- `confirm_word.strip().upper() == "DELETE"` (lines 758 and 786). -/
def confirm_ok (w : String) : Bool :=
  pyUpper (pyStrip w) == "DELETE"

/-- The "➕ 新規追加" submit handler (lines 661-686): append the new row,
save locally, push to GitHub, and only on push success write one
`"create"` audit record. -/
def handleCreate (now : DateTime) (user : String) (s : Secrets)
    (g : GetResult) (puts : Nat → Nat) (newRow : TaskRow) (st : AppState) :
    OpOutcome :=
  let df2 := st.tasks ++ [newRow]
  let ok := (save_to_github_csv s g puts).ok
  let audit2 :=
    write_audit now user "create" newRow.id none (some (snapshotStr newRow))
      st.audit
  if ok then
    { state := ⟨df2, audit2⟩
      localSaved := true
      remoteAttempted := true
      ok := true
      validationError := false }
  else
    { state := ⟨df2, st.audit⟩
      localSaved := true
      remoteAttempted := true
      ok := false
      validationError := false }

/-- Field update applied by the edit handler (lines 740-743). -/
def applyEdit (now : DateTime) (choiceId task_e status_e assignee_e
    next_e notes_e source_e : String) (t : TaskRow) : TaskRow :=
  if t.id == choiceId then
    { t with
      task := task_e
      status := status_e
      owner := assignee_e
      nextAction := next_e
      notes := notes_e
      source := source_e
      updated := some now }
  else t

/-- The "✏️ 編集" submit handler (lines 738-755): update the chosen row,
save locally, push to GitHub, and only on push success write one
`"update"` audit record for the chosen id. -/
def handleEdit (now : DateTime) (user : String) (s : Secrets)
    (g : GetResult) (puts : Nat → Nat) (choiceId task_e status_e assignee_e
    next_e notes_e source_e : String) (st : AppState) : OpOutcome :=
  let before := (st.tasks.find? (fun t => t.id == choiceId)).map snapshotStr
  let df2 := st.tasks.map
    (applyEdit now choiceId task_e status_e assignee_e next_e notes_e source_e)
  let ok := (save_to_github_csv s g puts).ok
  let audit2 :=
    write_audit now user "update" choiceId before
      (some (task_e ++ "|" ++ status_e ++ "|" ++ assignee_e ++ "|" ++
        next_e ++ "|" ++ notes_e ++ "|" ++ source_e)) st.audit
  if ok then
    { state := ⟨df2, audit2⟩
      localSaved := true
      remoteAttempted := true
      ok := true
      validationError := false }
  else
    { state := ⟨df2, st.audit⟩
      localSaved := true
      remoteAttempted := true
      ok := false
      validationError := false }

/-- The "✅ クローズ候補" bulk-close handler (lines 624-638): set the
selected ids to closed with `updated` = now, save locally, push to
GitHub, and only on push success write one `"close"` audit record per
selected id. -/
def handleClose (now : DateTime) (user : String) (s : Secrets)
    (g : GetResult) (puts : Nat → Nat) (ids : List String) (st : AppState) :
    OpOutcome :=
  let befores := fun tid => (st.tasks.find? (fun t => t.id == tid)).map snapshotStr
  let df2 := st.tasks.map (fun t =>
    if ids.contains t.id then
      { t with status := "クローズ", updated := some now }
    else t)
  let ok := (save_to_github_csv s g puts).ok
  let audit2 :=
    ids.foldl (fun log tid =>
      write_audit now user "close" tid (befores tid)
        (some ("クローズ|" ++ fmtDateTime now)) log) st.audit
  if ok then
    { state := ⟨df2, audit2⟩
      localSaved := true
      remoteAttempted := true
      ok := true
      validationError := false }
  else
    { state := ⟨df2, st.audit⟩
      localSaved := true
      remoteAttempted := true
      ok := false
      validationError := false }

/-- The per-row delete handler (lines 757-772): only a confirmation word
whose stripped upper-case form is `"DELETE"` proceeds; otherwise nothing
is saved and a validation error is shown.  On confirmation the row is
removed, saved locally, pushed, and only on push success one `"delete"`
audit record is written. -/
def handleDelete (now : DateTime) (user : String) (s : Secrets)
    (g : GetResult) (puts : Nat → Nat) (choiceId confirmWord : String)
    (st : AppState) : OpOutcome :=
  if confirm_ok confirmWord then
    let before := (st.tasks.find? (fun t => t.id == choiceId)).map snapshotStr
    let df2 := st.tasks.filter (fun t => !(t.id == choiceId))
    let ok := (save_to_github_csv s g puts).ok
    let audit2 := write_audit now user "delete" choiceId before none st.audit
    if ok then
      { state := ⟨df2, audit2⟩
        localSaved := true
        remoteAttempted := true
        ok := true
        validationError := false }
    else
      { state := ⟨df2, st.audit⟩
        localSaved := true
        remoteAttempted := true
        ok := false
        validationError := false }
  else
    { state := st
      localSaved := false
      remoteAttempted := false
      ok := false
      validationError := true }

/-- The "🗑️ 一括削除" handler (lines 785-800): same confirmation gate;
on confirmation all selected rows are removed, saved locally, pushed,
and only on push success one `"delete_bulk"` audit record is written per
selected id. -/
def handleBulkDelete (now : DateTime) (user : String) (s : Secrets)
    (g : GetResult) (puts : Nat → Nat) (delTargets : List String)
    (confirmWord : String) (st : AppState) : OpOutcome :=
  if confirm_ok confirmWord then
    let befores := fun tid => (st.tasks.find? (fun t => t.id == tid)).map snapshotStr
    let df2 := st.tasks.filter (fun t => !(delTargets.contains t.id))
    let ok := (save_to_github_csv s g puts).ok
    let audit2 :=
      delTargets.foldl (fun log tid =>
        write_audit now user "delete_bulk" tid (befores tid) none log) st.audit
    if ok then
      { state := ⟨df2, audit2⟩
        localSaved := true
        remoteAttempted := true
        ok := true
        validationError := false }
    else
      { state := ⟨df2, st.audit⟩
        localSaved := true
        remoteAttempted := true
        ok := false
        validationError := false }
  else
    { state := st
      localSaved := false
      remoteAttempted := false
      ok := false
      validationError := true }

/-- `df["ID"].astype(str).replace({"nan": "", "None": ""})` (line 169),
acting on one cell: the two pandas-NaN string renderings are folded to
the empty string. -/
def normalizeIdCell (s : String) : String :=
  if s == "nan" || s == "None" then "" else s

/-- `df["ID"].str.strip().eq("")` (line 170), the blank-ID test. -/
def isBlankId (s : String) : Bool :=
  pyStrip s == ""

/-- Lines 170-172: every blank ID cell receives the next fresh
identifier from `supply` (modelling `str(uuid.uuid4())`), consumed in
row order starting at index `k`.  Returns the new column and the next
unused supply index. -/
def fillBlanks (supply : Nat → String) : List String → Nat → List String × Nat
  | [], k => ([], k)
  | s :: rest, k =>
    if isBlankId s then
      let r := fillBlanks supply rest (k + 1)
      (supply k :: r.1, r.2)
    else
      let r := fillBlanks supply rest k
      (s :: r.1, r.2)

/-- Lines 173-175: `duplicated(keep="first")` marks every cell equal to
an earlier cell of the (blank-filled) column, and each marked cell
receives the next fresh identifier.  `seen` accumulates the original
values of the cells already passed, so the mask is computed on the
pre-replacement column, exactly as pandas does. -/
def assignFreshToDups (supply : Nat → String) :
    List String → List String → Nat → List String
  | [], _, _ => []
  | s :: rest, seen, k =>
    if s ∈ seen then supply k :: assignFreshToDups supply rest (s :: seen) (k + 1)
    else s :: assignFreshToDups supply rest (s :: seen) k

/-- The ID-normalization step of `_normalize_df` (lines 168-175) applied
to the ID column: fold NaN renderings, replace blanks with fresh
identifiers, then replace later duplicate occurrences with fresh
identifiers. -/
def normalize_ids (supply : Nat → String) (ids : List String) : List String :=
  let ids1 := ids.map normalizeIdCell
  let p := fillBlanks supply ids1 0
  assignFreshToDups supply p.1 [] p.2

/-- Concrete fresh-identifier supply used by witnesses and
counterexamples: `n` maps to the string of `n + 1` copies of `u`.  It is
injective, never blank, and avoids every ID used in those inputs, as a
`uuid.uuid4` supply does. -/
def wSupply (n : Nat) : String :=
  String.mk (List.replicate (n + 1) 'u')

example : format_ts true ⟨2024, 1, 2, 3, 4, 5⟩ none = "2024-01-02 03:04:05" := by decide
example : format_ts false ⟨2024, 1, 2, 3, 4, 5⟩ (some ⟨2023, 12, 31, 10, 0, 0⟩) = "2023-12-31" := by decide
example : pyStrip "  a b  " = "a b" := by decide
example : confirm_ok " delete " = true := by decide
example : confirm_ok "del" = false := by decide

/-! Concrete fixtures used by witnesses and counterexamples. -/

/-- A concrete instant: 2024-01-02 03:04:05. -/
def now0 : DateTime := ⟨2024, 1, 2, 3, 4, 5⟩

/-- A later instant, for the double-autofill scenario. -/
def now1 : DateTime := ⟨2024, 6, 7, 8, 9, 10⟩

/-- A task whose title is the classic CSV-injection payload. -/
def task0 : TaskRow :=
  ⟨"t1", some now0, some now0, "=CMD|calc|", "対応中", "Alice", "", "", ""⟩

/-- A task with both date cells missing (`NaT`). -/
def taskNoDates : TaskRow :=
  ⟨"t2", none, none, "hello", "未対応", "Bob", "", "", ""⟩

/-- Fully configured secrets. -/
def sFull : Secrets :=
  ⟨some "tok", some "own", some "repo", none, some "tasks.csv", some "audit.csv"⟩

/-- Completely unconfigured secrets. -/
def sEmpty : Secrets := ⟨none, none, none, none, none, none⟩

/-- GET succeeded with sha `"abc"`. -/
def g200 : GetResult := ⟨200, some "abc"⟩

/-- GET found no remote file. -/
def g404 : GetResult := ⟨404, none⟩

/-- Every PUT attempt is rate-limited. -/
def puts429 : Nat → Nat := fun _ => 429

/-- Every PUT attempt succeeds. -/
def puts200 : Nat → Nat := fun _ => 200

/-- Every PUT attempt hits a server error. -/
def puts500 : Nat → Nat := fun _ => 500

/-- A one-task application state with an empty audit log. -/
def st0 : AppState := ⟨[task0], []⟩

/-! Claim theorems. -/

/-- C1 counterexample: `save_tasks` persists the formula-triggering title
`"=CMD|calc|"` verbatim, not prefixed with a single quote, so the claimed
sanitization does not happen. -/
theorem C1_counterexample :
    startsFormulaTrigger "=CMD|calc|" = true ∧
    (save_tasks true now0 [task0])[0]? =
      some ["t1", "2024-01-02 03:04:05", "2024-01-02 03:04:05", "=CMD|calc|",
        "対応中", "Alice", "", "", ""] ∧
    "=CMD|calc|" ≠ "'" ++ "=CMD|calc|" := by
  decide

/-- C1 (amended): `save_tasks` writes every free-text cell (title, status,
owner, next action, notes, source) and the ID verbatim — no value, whether
or not it begins with `=`, `+`, `-` or `@`, is quote-prefixed or otherwise
changed on save. -/
theorem C1_theorem (swt : Bool) (now : DateTime) (df : List TaskRow)
    (i : Nat) (t : TaskRow) (h : df[i]? = some t) :
    ∃ row, (save_tasks swt now df)[i]? = some row ∧
      row[0]? = some t.id ∧ row[3]? = some t.task ∧ row[4]? = some t.status ∧
      row[5]? = some t.owner ∧ row[6]? = some t.nextAction ∧
      row[7]? = some t.notes ∧ row[8]? = some t.source := by
  refine ⟨taskRowOut swt now (autofillTask now t), ?_, rfl, rfl, rfl, rfl, rfl, rfl, rfl⟩
  simp [save_tasks, safety_autofill_all, List.getElem?_map, h]

/-- C1 witness: the theorem applied to the one-row injection-payload
table. -/
theorem C1_witness :
    ∃ row, (save_tasks true now0 [task0])[0]? = some row ∧
      row[0]? = some task0.id ∧ row[3]? = some task0.task ∧
      row[4]? = some task0.status ∧ row[5]? = some task0.owner ∧
      row[6]? = some task0.nextAction ∧ row[7]? = some task0.notes ∧
      row[8]? = some task0.source :=
  C1_theorem true now0 [task0] 0 task0 rfl

/-- C2 counterexample: with no remote integration configured at all,
`save_to_github_csv` reports failure (`False`, after an error message),
not the claimed no-op success. -/
theorem C2_counterexample :
    (save_to_github_csv sEmpty g404 puts200).ok ≠ true ∧
    sEmpty.githubPath = none ∧ missingKeys sEmpty ≠ [] := by
  decide

/-- C2 (amended): when `GITHUB_PATH` is absent (or empty),
`save_to_github_csv` reports failure and issues no PUT; when the
credential keys are missing, `save_to_github_file` reports failure and
issues no PUT.  Only the audit-log sync `save_audit_to_github` treats a
missing `GITHUB_PATH_AUDIT` as a no-op success. -/
theorem C2_theorem :
    (∀ s g p, s.githubPath.getD "" = "" →
      (save_to_github_csv s g p).ok = false ∧
      (save_to_github_csv s g p).putShas = []) ∧
    (∀ s g p, missingKeys s ≠ [] →
      (save_to_github_file s g p).ok = false ∧
      (save_to_github_file s g p).putShas = []) ∧
    (∀ s g p, s.githubPathAudit.getD "" = "" →
      save_audit_to_github s g p = true) := by
  refine ⟨?_, ?_, ?_⟩
  · intro s g p h
    simp [save_to_github_csv, h]
  · intro s g p h
    simp [save_to_github_file, h]
  · intro s g p h
    simp [save_audit_to_github, h]

/-- C2 witness: the theorem applied to the unconfigured secrets. -/
theorem C2_witness :
    (save_to_github_csv sEmpty g404 puts200).ok = false ∧
    (save_to_github_file sEmpty g404 puts200).ok = false ∧
    save_audit_to_github sEmpty g404 puts200 = true :=
  ⟨(C2_theorem.1 sEmpty g404 puts200 (by decide)).1,
   (C2_theorem.2.1 sEmpty g404 puts200 (by decide)).1,
   C2_theorem.2.2 sEmpty g404 puts200 (by decide)⟩

/-- C3 counterexample: with everything configured and the PUT answering
429, `save_to_github_file` issues exactly one PUT, performs no sleep, and
returns failure — there is no wait-and-retry. -/
theorem C3_counterexample :
    (save_to_github_file sFull g200 puts429).putShas.length = 1 ∧
    ¬ (save_to_github_file sFull g200 puts429).putShas.length = 2 ∧
    (save_to_github_file sFull g200 puts429).sleeps = [] ∧
    (save_to_github_file sFull g200 puts429).ok = false := by
  decide

/-- C3 (amended): `save_to_github_file` never sleeps and never issues more
than one PUT per call; when the single PUT returns HTTP 429 the call
reports a rate-limit error and returns failure without retrying. -/
theorem C3_theorem (s : Secrets) (g : GetResult) (puts : Nat → Nat) :
    (save_to_github_file s g puts).sleeps = [] ∧
    (save_to_github_file s g puts).putShas.length ≤ 1 ∧
    (missingKeys s = [] → puts 0 = 429 →
      (save_to_github_file s g puts).putShas.length = 1 ∧
      (save_to_github_file s g puts).ok = false) := by
  by_cases h : missingKeys s = []
  · refine ⟨by simp [save_to_github_file, h], by simp [save_to_github_file, h], ?_⟩
    intro _ hp
    simp [save_to_github_file, h, hp]
  · exact ⟨by simp [save_to_github_file, h], by simp [save_to_github_file, h],
      fun h0 => absurd h0 h⟩

/-- C3 witness: the theorem applied to a configured client whose PUT is
rate-limited. -/
theorem C3_witness :
    (save_to_github_file sFull g200 puts429).sleeps = [] ∧
    (save_to_github_file sFull g200 puts429).putShas.length = 1 ∧
    (save_to_github_file sFull g200 puts429).ok = false :=
  ⟨(C3_theorem sFull g200 puts429).1,
   ((C3_theorem sFull g200 puts429).2.2 (by decide) rfl).1,
   ((C3_theorem sFull g200 puts429).2.2 (by decide) rfl).2⟩

/-- C4 counterexample: the file-system trace of `save_tasks` is not of
the temporary-file/fsync/rename shape the claim describes. -/
theorem C4_counterexample :
    ¬ ∃ tmp, save_tasks_fileTrace "tasks.csv" =
      [FileOp.openWrite tmp, FileOp.fsync tmp, FileOp.rename tmp "tasks.csv"] := by
  intro hex
  obtain ⟨tmp, h⟩ := hex
  simp [save_tasks_fileTrace] at h

/-- C4 (amended): `save_tasks` persists by a single direct in-place write
of the destination path; its file-system trace contains no fsync and no
rename, so the replacement is not atomic. -/
theorem C4_theorem (p : String) :
    save_tasks_fileTrace p = [FileOp.openWrite p] ∧
    (save_tasks_fileTrace p).length = 1 ∧
    (save_tasks_fileTrace p).filter
      (fun op => match op with
        | FileOp.rename _ _ => true
        | FileOp.fsync _ => true
        | FileOp.openWrite _ => false) = [] :=
  ⟨rfl, rfl, rfl⟩

/-- C6 counterexample: with `SAVE_WITH_TIME = false` the task file's date
cells are persisted as `YYYY-MM-DD`, but the audit record's `ts` is still
persisted as `YYYY-MM-DD HH:MM:SS` — the flag does not govern all
persisted timestamps. -/
theorem C6_counterexample :
    (auditRecFor now0 "u" "create" "t1" none none).ts = "2024-01-02 03:04:05" ∧
    format_ts false now0 (some now0) = "2024-01-02" ∧
    "2024-01-02 03:04:05" ≠ "2024-01-02" := by
  decide

/-- C6 (amended): the task file's 起票日/更新日 cells follow the
`SAVE_WITH_TIME` flag through `format_ts` (`YYYY-MM-DD HH:MM:SS` when
true, `YYYY-MM-DD` when false), but the audit record's `ts` field is
always `YYYY-MM-DD HH:MM:SS`, irrespective of the flag. -/
theorem C6_theorem :
    (∀ (swt : Bool) (now : DateTime) (df : List TaskRow) (i : Nat)
      (t : TaskRow), df[i]? = some t →
      ∃ row, (save_tasks swt now df)[i]? = some row ∧
        row[1]? = some (format_ts swt now t.created) ∧
        row[2]? = some (format_ts swt now t.updated)) ∧
    (∀ swt now dt, format_ts swt now (some dt) =
      if swt then fmtDateTime dt else fmtDate dt) ∧
    (∀ now user action tid b a,
      (auditRecFor now user action tid b a).ts = fmtDateTime now) := by
  refine ⟨?_, fun swt now dt => rfl, fun now user action tid b a => rfl⟩
  intro swt now df i t h
  refine ⟨taskRowOut swt now (autofillTask now t), ?_, ?_, ?_⟩
  · simp [save_tasks, safety_autofill_all, List.getElem?_map, h]
  · simp [taskRowOut, autofillTask, format_ts]
  · simp [taskRowOut, autofillTask, format_ts]

/-- C6 witness: the theorem applied to the one-row table under
`SAVE_WITH_TIME = false`. -/
theorem C6_witness :
    (∃ row, (save_tasks false now0 [task0])[0]? = some row ∧
      row[1]? = some (format_ts false now0 task0.created) ∧
      row[2]? = some (format_ts false now0 task0.updated)) ∧
    (auditRecFor now0 "u" "create" "t1" none none).ts = fmtDateTime now0 :=
  ⟨C6_theorem.1 false now0 [task0] 0 task0 rfl,
   C6_theorem.2.2 now0 "u" "create" "t1" none none⟩

/-- C7 counterexample: the confirmation input `"delete"` is not the fixed
literal `"DELETE"`, yet the delete proceeds and removes the row. -/
theorem C7_counterexample :
    confirm_ok "delete" = true ∧ "delete" ≠ "DELETE" ∧
    (handleDelete now0 "u" sEmpty g404 puts200 "t1" "delete" st0).state.tasks = [] ∧
    (handleDelete now0 "u" sEmpty g404 puts200 "t1" "delete" st0).validationError = false := by
  decide

/-- C7 (amended): delete and bulk-delete proceed exactly when the
confirmation input, after stripping surrounding whitespace and upper-casing,
equals `"DELETE"`; for every input failing that test, the state is left
unchanged, nothing is saved locally, no remote request is attempted, and a
validation error is reported. -/
theorem C7_theorem :
    (∀ now user s g p cid w st, confirm_ok w = false →
      (handleDelete now user s g p cid w st).state = st ∧
      (handleDelete now user s g p cid w st).localSaved = false ∧
      (handleDelete now user s g p cid w st).remoteAttempted = false ∧
      (handleDelete now user s g p cid w st).validationError = true) ∧
    (∀ now user s g p cid w st, confirm_ok w = true →
      (handleDelete now user s g p cid w st).state.tasks =
        st.tasks.filter (fun t => !(t.id == cid)) ∧
      (handleDelete now user s g p cid w st).validationError = false ∧
      (handleDelete now user s g p cid w st).localSaved = true) ∧
    (∀ now user s g p ids w st, confirm_ok w = false →
      (handleBulkDelete now user s g p ids w st).state = st ∧
      (handleBulkDelete now user s g p ids w st).localSaved = false ∧
      (handleBulkDelete now user s g p ids w st).remoteAttempted = false ∧
      (handleBulkDelete now user s g p ids w st).validationError = true) ∧
    (∀ now user s g p ids w st, confirm_ok w = true →
      (handleBulkDelete now user s g p ids w st).state.tasks =
        st.tasks.filter (fun t => !(ids.contains t.id)) ∧
      (handleBulkDelete now user s g p ids w st).validationError = false ∧
      (handleBulkDelete now user s g p ids w st).localSaved = true) ∧
    (∀ w, confirm_ok w = true ↔ pyUpper (pyStrip w) = "DELETE") := by
  refine ⟨?_, ?_, ?_, ?_, ?_⟩
  · intro now user s g p cid w st h
    simp [handleDelete, h]
  · intro now user s g p cid w st h
    simp only [handleDelete, h, if_true]
    split <;> simp
  · intro now user s g p ids w st h
    simp [handleBulkDelete, h]
  · intro now user s g p ids w st h
    simp only [handleBulkDelete, h, if_true]
    split <;> simp
  · intro w
    simp [confirm_ok]

/-- C7 witness: the theorem applied to a rejected input (`"x"`) and an
accepted one (`"DELETE"`). -/
theorem C7_witness :
    (handleDelete now0 "u" sEmpty g404 puts200 "t1" "x" st0).state = st0 ∧
    (handleDelete now0 "u" sFull g200 puts200 "t1" "DELETE" st0).state.tasks = [] := by
  refine ⟨(C7_theorem.1 now0 "u" sEmpty g404 puts200 "t1" "x" st0 (by decide)).1, ?_⟩
  have h := (C7_theorem.2.1 now0 "u" sFull g200 puts200 "t1" "DELETE" st0 (by decide)).1
  rw [h]
  decide

/-- C9: `safety_autofill_all` keeps every parseable date cell, replaces
only missing (`NaT`) cells with "now", touches no other field, and a
second application (at any later "now") changes nothing. -/
theorem C9_theorem :
    (∀ now t v, t.created = some v → (autofillTask now t).created = some v) ∧
    (∀ now t v, t.updated = some v → (autofillTask now t).updated = some v) ∧
    (∀ now t, t.created = none → (autofillTask now t).created = some now) ∧
    (∀ now t, t.updated = none → (autofillTask now t).updated = some now) ∧
    (∀ now t, (autofillTask now t).id = t.id ∧
      (autofillTask now t).task = t.task ∧
      (autofillTask now t).status = t.status ∧
      (autofillTask now t).owner = t.owner ∧
      (autofillTask now t).nextAction = t.nextAction ∧
      (autofillTask now t).notes = t.notes ∧
      (autofillTask now t).source = t.source) ∧
    (∀ n1 n2 df, safety_autofill_all n2 (safety_autofill_all n1 df) =
      safety_autofill_all n1 df) := by
  refine ⟨?_, ?_, ?_, ?_, ?_, ?_⟩
  · intro now t v h
    simp [autofillTask, h]
  · intro now t v h
    simp [autofillTask, h]
  · intro now t h
    simp [autofillTask, h]
  · intro now t h
    simp [autofillTask, h]
  · intro now t
    exact ⟨rfl, rfl, rfl, rfl, rfl, rfl, rfl⟩
  · intro n1 n2 df
    simp only [safety_autofill_all, List.map_map]
    refine List.map_congr_left ?_
    intro t _
    rfl

/-- C9 witness: the theorem applied to a present cell, a missing cell,
and a concrete double application. -/
theorem C9_witness :
    (autofillTask now1 task0).created = some now0 ∧
    (autofillTask now0 taskNoDates).created = some now0 ∧
    safety_autofill_all now1 (safety_autofill_all now0 [taskNoDates, task0]) =
      safety_autofill_all now0 [taskNoDates, task0] :=
  ⟨C9_theorem.1 now1 task0 now0 rfl,
   C9_theorem.2.2.1 now0 taskNoDates rfl,
   C9_theorem.2.2.2.2.2 now0 now1 [taskNoDates, task0]⟩

/-- The `sha` computed by lines 259 and 271-272 is `some` exactly for a
200 GET whose body carries a non-empty `sha`. -/
lemma githubLatestSha_eq_some (g : GetResult) (sh : String) :
    githubLatestSha g = some sh ↔
      (g.status = 200 ∧ g.shaField = some sh ∧ sh ≠ "") := by
  rcases g with ⟨status, shaField⟩
  simp only [githubLatestSha]
  by_cases hs : status = 200
  · subst hs
    cases shaField with
    | none => simp
    | some sh0 =>
      by_cases he : sh0 = ""
      · subst he
        simp
        exact fun h0 => h0.symm
      · have hb : (sh0 == "") = false := by simpa using he
        simp [hb, he]
        intro h0
        exact fun hc => he (h0.trans hc)
  · have hb : (status == 200) = false := by simpa using hs
    simp [hb, hs]

/-- C10: with the credential keys present, the single PUT of
`save_to_github_file` carries exactly the sha computed from the GET:
a `sha` condition is attached iff the GET returned HTTP 200 with a
non-empty `sha` in its JSON body; on 404, 401, 403, 429, 5xx or any
other GET status the PUT is sent unconditioned. -/
theorem C10_theorem (s : Secrets) (g : GetResult) (p : Nat → Nat)
    (h : missingKeys s = []) :
    (save_to_github_file s g p).putShas = [githubLatestSha g] ∧
    (∀ sh, githubLatestSha g = some sh ↔
      (g.status = 200 ∧ g.shaField = some sh ∧ sh ≠ "")) :=
  ⟨by simp [save_to_github_file, h], fun sh => githubLatestSha_eq_some g sh⟩

/-- C10 witness: the theorem applied to a 200-with-sha GET and to a 404
GET. -/
theorem C10_witness :
    (save_to_github_file sFull g200 puts200).putShas = [some "abc"] ∧
    (save_to_github_file sFull g404 puts200).putShas = [none] := by
  constructor
  · rw [(C10_theorem sFull g200 puts200 (by decide)).1]
    decide
  · rw [(C10_theorem sFull g404 puts200 (by decide)).1]
    decide

/-- Folding an append-one-element step over a list appends the mapped
list. -/
lemma foldl_append_one {α β : Type _} (f : α → β) (l : List α) :
    ∀ acc : List β, l.foldl (fun a x => a ++ [f x]) acc = acc ++ l.map f := by
  induction l with
  | nil =>
    intro acc
    simp
  | cons x rest ih =>
    intro acc
    simp only [List.foldl_cons, List.map_cons]
    rw [ih, List.append_assoc]
    rfl

/-- C5 counterexample: an edit whose remote push fails changes (and
locally saves) the task table yet appends no audit record, so a mutation
that changes the table is not always audited. -/
theorem C5_counterexample :
    (handleEdit now0 "u" sFull g200 puts500 "t1" "X" "未対応" "B" "n" "m" "s" st0).state.tasks ≠ st0.tasks ∧
    (handleEdit now0 "u" sFull g200 puts500 "t1" "X" "未対応" "B" "n" "m" "s" st0).state.audit = st0.audit ∧
    (handleEdit now0 "u" sFull g200 puts500 "t1" "X" "未対応" "B" "n" "m" "s" st0).localSaved = true := by
  decide

/-- C5 (amended): when the remote push reports success, each mutating
handler appends exactly one audit record per affected task id (action
`create`/`update`/`close`/`delete`/`delete_bulk`, in selection order);
when the remote push reports failure, the table change is still persisted
locally but no audit record is written.  In every case the previous audit
log is an unchanged initial segment of the new one — records are never
modified or deleted. -/
theorem C5_theorem :
    (∀ now user s g p nr st,
      ((save_to_github_csv s g p).ok = true →
        ∃ recs : List AuditRec, (handleCreate now user s g p nr st).state.audit = st.audit ++ recs ∧
          recs.length = 1 ∧
          (∀ r2 ∈ recs, r2.action = "create" ∧ r2.taskId = nr.id)) ∧
      ((save_to_github_csv s g p).ok = false →
        (handleCreate now user s g p nr st).state.audit = st.audit ∧
        (handleCreate now user s g p nr st).state.tasks = st.tasks ++ [nr]) ∧
      (∃ suf, (handleCreate now user s g p nr st).state.audit = st.audit ++ suf)) ∧
    (∀ now user s g p cid a1 a2 a3 a4 a5 a6 st,
      ((save_to_github_csv s g p).ok = true →
        ∃ recs : List AuditRec, (handleEdit now user s g p cid a1 a2 a3 a4 a5 a6 st).state.audit =
            st.audit ++ recs ∧ recs.length = 1 ∧
          (∀ r2 ∈ recs, r2.action = "update" ∧ r2.taskId = cid)) ∧
      ((save_to_github_csv s g p).ok = false →
        (handleEdit now user s g p cid a1 a2 a3 a4 a5 a6 st).state.audit = st.audit) ∧
      (∃ suf, (handleEdit now user s g p cid a1 a2 a3 a4 a5 a6 st).state.audit =
        st.audit ++ suf)) ∧
    (∀ now user s g p ids st,
      ((save_to_github_csv s g p).ok = true →
        ∃ recs : List AuditRec, (handleClose now user s g p ids st).state.audit = st.audit ++ recs ∧
          recs.length = ids.length ∧
          (∀ (i : Nat) (tid : String), ids[i]? = some tid →
            ∃ r2 : AuditRec, recs[i]? = some r2 ∧
            r2.action = "close" ∧ r2.taskId = tid)) ∧
      ((save_to_github_csv s g p).ok = false →
        (handleClose now user s g p ids st).state.audit = st.audit) ∧
      (∃ suf, (handleClose now user s g p ids st).state.audit = st.audit ++ suf)) ∧
    (∀ now user s g p cid w st,
      (confirm_ok w = true → (save_to_github_csv s g p).ok = true →
        ∃ recs : List AuditRec, (handleDelete now user s g p cid w st).state.audit = st.audit ++ recs ∧
          recs.length = 1 ∧
          (∀ r2 ∈ recs, r2.action = "delete" ∧ r2.taskId = cid)) ∧
      (confirm_ok w = true → (save_to_github_csv s g p).ok = false →
        (handleDelete now user s g p cid w st).state.audit = st.audit) ∧
      (∃ suf, (handleDelete now user s g p cid w st).state.audit = st.audit ++ suf)) ∧
    (∀ now user s g p ids w st,
      (confirm_ok w = true → (save_to_github_csv s g p).ok = true →
        ∃ recs : List AuditRec, (handleBulkDelete now user s g p ids w st).state.audit = st.audit ++ recs ∧
          recs.length = ids.length ∧
          (∀ (i : Nat) (tid : String), ids[i]? = some tid →
            ∃ r2 : AuditRec, recs[i]? = some r2 ∧
            r2.action = "delete_bulk" ∧ r2.taskId = tid)) ∧
      (confirm_ok w = true → (save_to_github_csv s g p).ok = false →
        (handleBulkDelete now user s g p ids w st).state.audit = st.audit) ∧
      (∃ suf, (handleBulkDelete now user s g p ids w st).state.audit = st.audit ++ suf)) := by
  refine ⟨?_, ?_, ?_, ?_, ?_⟩
  · intro now user s g p nr st
    refine ⟨?_, ?_, ?_⟩
    · intro hok
      refine ⟨[auditRecFor now user "create" nr.id none (some (snapshotStr nr))], ?_, rfl, ?_⟩
      · simp [handleCreate, hok, write_audit]
      · intro r2 hr2
        simp only [List.mem_singleton] at hr2
        subst hr2
        exact ⟨rfl, rfl⟩
    · intro hok
      constructor <;> simp [handleCreate, hok]
    · by_cases hok : (save_to_github_csv s g p).ok = true
      · exact ⟨[auditRecFor now user "create" nr.id none (some (snapshotStr nr))],
          by simp [handleCreate, hok, write_audit]⟩
      · have hok2 : (save_to_github_csv s g p).ok = false := by simpa using hok
        exact ⟨[], by simp [handleCreate, hok2]⟩
  · intro now user s g p cid a1 a2 a3 a4 a5 a6 st
    refine ⟨?_, ?_, ?_⟩
    · intro hok
      refine ⟨[auditRecFor now user "update" cid
          ((st.tasks.find? (fun t => t.id == cid)).map snapshotStr)
          (some (a1 ++ "|" ++ a2 ++ "|" ++ a3 ++ "|" ++ a4 ++ "|" ++ a5 ++ "|" ++ a6))],
          ?_, rfl, ?_⟩
      · simp [handleEdit, hok, write_audit]
      · intro r2 hr2
        simp only [List.mem_singleton] at hr2
        subst hr2
        exact ⟨rfl, rfl⟩
    · intro hok
      simp [handleEdit, hok]
    · by_cases hok : (save_to_github_csv s g p).ok = true
      · exact ⟨[auditRecFor now user "update" cid
            ((st.tasks.find? (fun t => t.id == cid)).map snapshotStr)
            (some (a1 ++ "|" ++ a2 ++ "|" ++ a3 ++ "|" ++ a4 ++ "|" ++ a5 ++ "|" ++ a6))],
          by simp [handleEdit, hok, write_audit]⟩
      · have hok2 : (save_to_github_csv s g p).ok = false := by simpa using hok
        exact ⟨[], by simp [handleEdit, hok2]⟩
  · intro now user s g p ids st
    refine ⟨?_, ?_, ?_⟩
    · intro hok
      refine ⟨ids.map (fun tid => auditRecFor now user "close" tid
          ((st.tasks.find? (fun t => t.id == tid)).map snapshotStr)
          (some ("クローズ|" ++ fmtDateTime now))), ?_, by simp, ?_⟩
      · simp only [handleClose, hok, if_true, write_audit]
        exact foldl_append_one _ ids st.audit
      · intro i tid hi
        refine ⟨auditRecFor now user "close" tid
          ((st.tasks.find? (fun t => t.id == tid)).map snapshotStr)
          (some ("クローズ|" ++ fmtDateTime now)), ?_, rfl, rfl⟩
        simp [List.getElem?_map, hi]
    · intro hok
      simp [handleClose, hok]
    · by_cases hok : (save_to_github_csv s g p).ok = true
      · refine ⟨ids.map (fun tid => auditRecFor now user "close" tid
            ((st.tasks.find? (fun t => t.id == tid)).map snapshotStr)
            (some ("クローズ|" ++ fmtDateTime now))), ?_⟩
        simp only [handleClose, hok, if_true, write_audit]
        exact foldl_append_one _ ids st.audit
      · have hok2 : (save_to_github_csv s g p).ok = false := by simpa using hok
        exact ⟨[], by simp [handleClose, hok2]⟩
  · intro now user s g p cid w st
    refine ⟨?_, ?_, ?_⟩
    · intro hw hok
      refine ⟨[auditRecFor now user "delete" cid
          ((st.tasks.find? (fun t => t.id == cid)).map snapshotStr) none], ?_, rfl, ?_⟩
      · simp [handleDelete, hw, hok, write_audit]
      · intro r2 hr2
        simp only [List.mem_singleton] at hr2
        subst hr2
        exact ⟨rfl, rfl⟩
    · intro hw hok
      simp [handleDelete, hw, hok]
    · by_cases hw : confirm_ok w = true
      · by_cases hok : (save_to_github_csv s g p).ok = true
        · exact ⟨[auditRecFor now user "delete" cid
              ((st.tasks.find? (fun t => t.id == cid)).map snapshotStr) none],
            by simp [handleDelete, hw, hok, write_audit]⟩
        · have hok2 : (save_to_github_csv s g p).ok = false := by simpa using hok
          exact ⟨[], by simp [handleDelete, hw, hok2]⟩
      · have hw2 : confirm_ok w = false := by simpa using hw
        exact ⟨[], by simp [handleDelete, hw2]⟩
  · intro now user s g p ids w st
    refine ⟨?_, ?_, ?_⟩
    · intro hw hok
      refine ⟨ids.map (fun tid => auditRecFor now user "delete_bulk" tid
          ((st.tasks.find? (fun t => t.id == tid)).map snapshotStr) none), ?_, by simp, ?_⟩
      · simp only [handleBulkDelete, hw, hok, if_true, write_audit]
        exact foldl_append_one _ ids st.audit
      · intro i tid hi
        refine ⟨auditRecFor now user "delete_bulk" tid
          ((st.tasks.find? (fun t => t.id == tid)).map snapshotStr) none, ?_, rfl, rfl⟩
        simp [List.getElem?_map, hi]
    · intro hw hok
      simp [handleBulkDelete, hw, hok]
    · by_cases hw : confirm_ok w = true
      · by_cases hok : (save_to_github_csv s g p).ok = true
        · refine ⟨ids.map (fun tid => auditRecFor now user "delete_bulk" tid
              ((st.tasks.find? (fun t => t.id == tid)).map snapshotStr) none), ?_⟩
          simp only [handleBulkDelete, hw, hok, if_true, write_audit]
          exact foldl_append_one _ ids st.audit
        · have hok2 : (save_to_github_csv s g p).ok = false := by simpa using hok
          exact ⟨[], by simp [handleBulkDelete, hw, hok2]⟩
      · have hw2 : confirm_ok w = false := by simpa using hw
        exact ⟨[], by simp [handleBulkDelete, hw2]⟩

/-- C5 witness: the theorem applied to a successful create and a
successful bulk close. -/
theorem C5_witness :
    (∃ recs : List AuditRec, (handleCreate now0 "u" sFull g200 puts200 taskNoDates st0).state.audit =
        st0.audit ++ recs ∧ recs.length = 1 ∧
        (∀ r2 ∈ recs, r2.action = "create" ∧ r2.taskId = taskNoDates.id)) ∧
    (∃ recs : List AuditRec, (handleClose now0 "u" sFull g200 puts200 ["t1"] st0).state.audit =
        st0.audit ++ recs ∧ recs.length = (["t1"] : List String).length ∧
        (∀ (i : Nat) (tid : String), (["t1"] : List String)[i]? = some tid →
          ∃ r2 : AuditRec, recs[i]? = some r2 ∧
            r2.action = "close" ∧ r2.taskId = tid)) :=
  ⟨(C5_theorem.1 now0 "u" sFull g200 puts200 taskNoDates st0).1 (by decide),
   (C5_theorem.2.2.1 now0 "u" sFull g200 puts200 ["t1"] st0).1 (by decide)⟩

/-- Unfolding equation of `fillBlanks` at a blank head cell. -/
lemma fillBlanks_cons_blank (supply : Nat → String) (s : String)
    (rest : List String) (k : Nat) (h : isBlankId s = true) :
    fillBlanks supply (s :: rest) k =
      (supply k :: (fillBlanks supply rest (k + 1)).1,
        (fillBlanks supply rest (k + 1)).2) := by
  simp [fillBlanks, h]

/-- Unfolding equation of `fillBlanks` at a non-blank head cell. -/
lemma fillBlanks_cons_keep (supply : Nat → String) (s : String)
    (rest : List String) (k : Nat) (h : isBlankId s = false) :
    fillBlanks supply (s :: rest) k =
      (s :: (fillBlanks supply rest k).1, (fillBlanks supply rest k).2) := by
  simp [fillBlanks, h]

/-- `fillBlanks` keeps the column length. -/
lemma fillBlanks_length (supply : Nat → String) :
    ∀ (l : List String) (k : Nat), (fillBlanks supply l k).1.length = l.length := by
  intro l
  induction l with
  | nil =>
    intro k
    rfl
  | cons s rest ih =>
    intro k
    by_cases h : isBlankId s = true
    · rw [fillBlanks_cons_blank supply s rest k h]
      simp [ih]
    · have h2 : isBlankId s = false := by simpa using h
      rw [fillBlanks_cons_keep supply s rest k h2]
      simp [ih]

/-- The supply index never decreases through `fillBlanks`. -/
lemma fillBlanks_le (supply : Nat → String) :
    ∀ (l : List String) (k : Nat), k ≤ (fillBlanks supply l k).2 := by
  intro l
  induction l with
  | nil =>
    intro k
    exact Nat.le_refl k
  | cons s rest ih =>
    intro k
    by_cases h : isBlankId s = true
    · rw [fillBlanks_cons_blank supply s rest k h]
      exact Nat.le_trans (Nat.le_succ k) (ih (k + 1))
    · have h2 : isBlankId s = false := by simpa using h
      rw [fillBlanks_cons_keep supply s rest k h2]
      exact ih k

/-- Every cell of a blank-filled column is either a kept non-blank
original or a fresh supply value with index below the returned bound. -/
lemma fillBlanks_mem (supply : Nat → String) :
    ∀ (l : List String) (k : Nat) (x : String),
      x ∈ (fillBlanks supply l k).1 →
      (x ∈ l ∧ isBlankId x = false) ∨
      ∃ j, k ≤ j ∧ j < (fillBlanks supply l k).2 ∧ x = supply j := by
  intro l
  induction l with
  | nil =>
    intro k x hx
    simp [fillBlanks] at hx
  | cons s rest ih =>
    intro k x hx
    by_cases h : isBlankId s = true
    · rw [fillBlanks_cons_blank supply s rest k h] at hx ⊢
      rcases List.mem_cons.mp hx with he | ht
      · refine Or.inr ⟨k, Nat.le_refl k, ?_, he⟩
        exact Nat.lt_of_lt_of_le (Nat.lt_succ_self k) (fillBlanks_le supply rest (k + 1))
      · rcases ih (k + 1) x ht with ⟨h1, h2⟩ | ⟨j, hj1, hj2, hj3⟩
        · exact Or.inl ⟨List.mem_cons_of_mem s h1, h2⟩
        · exact Or.inr ⟨j, Nat.le_trans (Nat.le_succ k) hj1, hj2, hj3⟩
    · have h2 : isBlankId s = false := by simpa using h
      rw [fillBlanks_cons_keep supply s rest k h2] at hx ⊢
      rcases List.mem_cons.mp hx with he | ht
      · exact Or.inl ⟨he ▸ List.mem_cons_self s rest, he ▸ h2⟩
      · rcases ih k x ht with ⟨h1, h3⟩ | ⟨j, hj1, hj2, hj3⟩
        · exact Or.inl ⟨List.mem_cons_of_mem s h1, h3⟩
        · exact Or.inr ⟨j, hj1, hj2, hj3⟩

/-- A non-blank cell is kept in place by `fillBlanks`. -/
lemma fillBlanks_get (supply : Nat → String) :
    ∀ (l : List String) (k i : Nat) (s : String),
      l[i]? = some s → isBlankId s = false →
      (fillBlanks supply l k).1[i]? = some s := by
  intro l
  induction l with
  | nil =>
    intro k i s h _
    simp at h
  | cons a rest ih =>
    intro k i s h hnb
    cases i with
    | zero =>
      rw [List.getElem?_cons_zero] at h
      have ha : a = s := by injection h
      subst ha
      rw [fillBlanks_cons_keep supply a rest k hnb]
      exact List.getElem?_cons_zero
    | succ i =>
      rw [List.getElem?_cons_succ] at h
      by_cases hb : isBlankId a = true
      · rw [fillBlanks_cons_blank supply a rest k hb, List.getElem?_cons_succ]
        exact ih (k + 1) i s h hnb
      · have hb2 : isBlankId a = false := by simpa using hb
        rw [fillBlanks_cons_keep supply a rest k hb2, List.getElem?_cons_succ]
        exact ih k i s h hnb

/-- Each position of the blank-filled column holds either the original
cell or some fresh supply value. -/
lemma fillBlanks_get_or (supply : Nat → String) :
    ∀ (l : List String) (k i : Nat),
      (fillBlanks supply l k).1[i]? = l[i]? ∨
      ∃ m, (fillBlanks supply l k).1[i]? = some (supply m) := by
  intro l
  induction l with
  | nil =>
    intro k i
    exact Or.inl rfl
  | cons a rest ih =>
    intro k i
    by_cases hb : isBlankId a = true
    · rw [fillBlanks_cons_blank supply a rest k hb]
      cases i with
      | zero => exact Or.inr ⟨k, List.getElem?_cons_zero⟩
      | succ i =>
        rw [List.getElem?_cons_succ, List.getElem?_cons_succ]
        exact ih (k + 1) i
    · have hb2 : isBlankId a = false := by simpa using hb
      rw [fillBlanks_cons_keep supply a rest k hb2]
      cases i with
      | zero => exact Or.inl (by simp)
      | succ i =>
        rw [List.getElem?_cons_succ, List.getElem?_cons_succ]
        exact ih k i

/-- A blank cell is replaced in place by some fresh supply value. -/
lemma fillBlanks_get_blank (supply : Nat → String) :
    ∀ (l : List String) (k i : Nat) (s : String),
      l[i]? = some s → isBlankId s = true →
      ∃ m, (fillBlanks supply l k).1[i]? = some (supply m) := by
  intro l
  induction l with
  | nil =>
    intro k i s h _
    simp at h
  | cons a rest ih =>
    intro k i s h hbl
    cases i with
    | zero =>
      rw [List.getElem?_cons_zero] at h
      have ha : a = s := by injection h
      subst ha
      rw [fillBlanks_cons_blank supply a rest k hbl]
      exact ⟨k, List.getElem?_cons_zero⟩
    | succ i =>
      rw [List.getElem?_cons_succ] at h
      by_cases hb : isBlankId a = true
      · rw [fillBlanks_cons_blank supply a rest k hb, List.getElem?_cons_succ]
        exact ih (k + 1) i s h hbl
      · have hb2 : isBlankId a = false := by simpa using hb
        rw [fillBlanks_cons_keep supply a rest k hb2, List.getElem?_cons_succ]
        exact ih k i s h hbl

/-- Unfolding equation of `assignFreshToDups` on a duplicated head. -/
lemma assignFreshToDups_cons_dup (supply : Nat → String) (s : String)
    (rest seen : List String) (k : Nat) (h : s ∈ seen) :
    assignFreshToDups supply (s :: rest) seen k =
      supply k :: assignFreshToDups supply rest (s :: seen) (k + 1) := by
  simp [assignFreshToDups, h]

/-- Unfolding equation of `assignFreshToDups` on a first-seen head. -/
lemma assignFreshToDups_cons_new (supply : Nat → String) (s : String)
    (rest seen : List String) (k : Nat) (h : s ∉ seen) :
    assignFreshToDups supply (s :: rest) seen k =
      s :: assignFreshToDups supply rest (s :: seen) k := by
  simp [assignFreshToDups, h]

/-- `assignFreshToDups` keeps the column length. -/
lemma assignFreshToDups_length (supply : Nat → String) :
    ∀ (l seen : List String) (k : Nat),
      (assignFreshToDups supply l seen k).length = l.length := by
  intro l
  induction l with
  | nil =>
    intro seen k
    rfl
  | cons s rest ih =>
    intro seen k
    by_cases h : s ∈ seen
    · rw [assignFreshToDups_cons_dup supply s rest seen k h]
      simp [ih]
    · rw [assignFreshToDups_cons_new supply s rest seen k h]
      simp [ih]

/-- Every cell after duplicate replacement is either a kept original not
yet seen, or a fresh supply value with index at least `k`. -/
lemma assignFreshToDups_mem (supply : Nat → String) :
    ∀ (l seen : List String) (k : Nat) (x : String),
      x ∈ assignFreshToDups supply l seen k →
      (x ∈ l ∧ x ∉ seen) ∨ ∃ j, k ≤ j ∧ x = supply j := by
  intro l
  induction l with
  | nil =>
    intro seen k x hx
    simp [assignFreshToDups] at hx
  | cons s rest ih =>
    intro seen k x hx
    by_cases h : s ∈ seen
    · rw [assignFreshToDups_cons_dup supply s rest seen k h] at hx
      rcases List.mem_cons.mp hx with he | ht
      · exact Or.inr ⟨k, Nat.le_refl k, he⟩
      · rcases ih (s :: seen) (k + 1) x ht with ⟨h1, h2⟩ | ⟨j, hj1, hj2⟩
        · exact Or.inl ⟨List.mem_cons_of_mem s h1,
            fun hx2 => h2 (List.mem_cons_of_mem s hx2)⟩
        · exact Or.inr ⟨j, Nat.le_trans (Nat.le_succ k) hj1, hj2⟩
    · rw [assignFreshToDups_cons_new supply s rest seen k h] at hx
      rcases List.mem_cons.mp hx with he | ht
      · exact Or.inl ⟨he ▸ List.mem_cons_self s rest, he ▸ h⟩
      · rcases ih (s :: seen) k x ht with ⟨h1, h2⟩ | ⟨j, hj1, hj2⟩
        · exact Or.inl ⟨List.mem_cons_of_mem s h1,
            fun hx2 => h2 (List.mem_cons_of_mem s hx2)⟩
        · exact Or.inr ⟨j, hj1, hj2⟩

/-- With an injective supply that avoids the column, duplicate
replacement yields a duplicate-free column. -/
lemma assignFreshToDups_nodup (supply : Nat → String)
    (hinj : Function.Injective supply) :
    ∀ (l seen : List String) (k : Nat),
      (∀ j, k ≤ j → supply j ∉ l) →
      (assignFreshToDups supply l seen k).Nodup := by
  intro l
  induction l with
  | nil =>
    intro seen k _
    simp [assignFreshToDups]
  | cons s rest ih =>
    intro seen k hf
    by_cases h : s ∈ seen
    · rw [assignFreshToDups_cons_dup supply s rest seen k h]
      refine List.nodup_cons.mpr ⟨?_, ?_⟩
      · intro hmem
        rcases assignFreshToDups_mem supply rest (s :: seen) (k + 1)
            (supply k) hmem with ⟨hin, _⟩ | ⟨j, hj1, hj2⟩
        · exact hf k (Nat.le_refl k) (List.mem_cons_of_mem s hin)
        · have : k = j := hinj hj2
          omega
      · exact ih (s :: seen) (k + 1)
          (fun j hj hmem => hf j (Nat.le_trans (Nat.le_succ k) hj)
            (List.mem_cons_of_mem s hmem))
    · rw [assignFreshToDups_cons_new supply s rest seen k h]
      refine List.nodup_cons.mpr ⟨?_, ?_⟩
      · intro hmem
        rcases assignFreshToDups_mem supply rest (s :: seen) k s hmem with
          ⟨_, hnotin⟩ | ⟨j, hj1, hj2⟩
        · exact hnotin (List.mem_cons_self s seen)
        · exact hf j hj1 (hj2 ▸ List.mem_cons_self s rest)
      · exact ih (s :: seen) k
          (fun j hj hmem => hf j hj (List.mem_cons_of_mem s hmem))

/-- A cell that is unseen and has no earlier equal cell is kept in place
by duplicate replacement. -/
lemma assignFreshToDups_get (supply : Nat → String) :
    ∀ (l seen : List String) (k i : Nat) (s : String),
      l[i]? = some s → s ∉ seen →
      (∀ j, j < i → l[j]? ≠ some s) →
      (assignFreshToDups supply l seen k)[i]? = some s := by
  intro l
  induction l with
  | nil =>
    intro seen k i s h _ _
    simp at h
  | cons a rest ih =>
    intro seen k i s h hseen hprev
    cases i with
    | zero =>
      rw [List.getElem?_cons_zero] at h
      have ha : a = s := by injection h
      subst ha
      rw [assignFreshToDups_cons_new supply a rest seen k hseen]
      exact List.getElem?_cons_zero
    | succ i =>
      rw [List.getElem?_cons_succ] at h
      have hne : a ≠ s := by
        intro he
        exact hprev 0 (Nat.succ_pos i) (by rw [List.getElem?_cons_zero, he])
      have hseen2 : s ∉ a :: seen := by
        intro hx
        rcases List.mem_cons.mp hx with he | hx2
        · exact hne he.symm
        · exact hseen hx2
      have hprev2 : ∀ j, j < i → rest[j]? ≠ some s := by
        intro j hj he
        exact hprev (j + 1) (Nat.succ_lt_succ hj)
          (by rw [List.getElem?_cons_succ]; exact he)
      by_cases hb : a ∈ seen
      · rw [assignFreshToDups_cons_dup supply a rest seen k hb,
          List.getElem?_cons_succ]
        exact ih (a :: seen) (k + 1) i s h hseen2 hprev2
      · rw [assignFreshToDups_cons_new supply a rest seen k hb,
          List.getElem?_cons_succ]
        exact ih (a :: seen) k i s h hseen2 hprev2

/-- Each position after duplicate replacement holds either the original
cell or some fresh supply value. -/
lemma assignFreshToDups_get_or (supply : Nat → String) :
    ∀ (l seen : List String) (k i : Nat),
      (assignFreshToDups supply l seen k)[i]? = l[i]? ∨
      ∃ m, (assignFreshToDups supply l seen k)[i]? = some (supply m) := by
  intro l
  induction l with
  | nil =>
    intro seen k i
    exact Or.inl rfl
  | cons a rest ih =>
    intro seen k i
    by_cases hb : a ∈ seen
    · rw [assignFreshToDups_cons_dup supply a rest seen k hb]
      cases i with
      | zero => exact Or.inr ⟨k, List.getElem?_cons_zero⟩
      | succ i =>
        rw [List.getElem?_cons_succ, List.getElem?_cons_succ]
        exact ih (a :: seen) (k + 1) i
    · rw [assignFreshToDups_cons_new supply a rest seen k hb]
      cases i with
      | zero => exact Or.inl (by simp)
      | succ i =>
        rw [List.getElem?_cons_succ, List.getElem?_cons_succ]
        exact ih (a :: seen) k i

/-- A cell that is already seen, or equal to an earlier cell, is
replaced in place by some fresh supply value. -/
lemma assignFreshToDups_get_dup (supply : Nat → String) :
    ∀ (l seen : List String) (k i : Nat) (s : String),
      l[i]? = some s →
      (s ∈ seen ∨ ∃ j, j < i ∧ l[j]? = some s) →
      ∃ m, (assignFreshToDups supply l seen k)[i]? = some (supply m) := by
  intro l
  induction l with
  | nil =>
    intro seen k i s h _
    simp at h
  | cons a rest ih =>
    intro seen k i s h hdup
    cases i with
    | zero =>
      rw [List.getElem?_cons_zero] at h
      have ha : a = s := by injection h
      subst ha
      have hseen : a ∈ seen := by
        rcases hdup with hs | ⟨j, hj, _⟩
        · exact hs
        · omega
      rw [assignFreshToDups_cons_dup supply a rest seen k hseen]
      exact ⟨k, List.getElem?_cons_zero⟩
    | succ i =>
      rw [List.getElem?_cons_succ] at h
      have hdup2 : s ∈ a :: seen ∨ ∃ j, j < i ∧ rest[j]? = some s := by
        rcases hdup with hs | ⟨j, hj, hje⟩
        · exact Or.inl (List.mem_cons_of_mem a hs)
        · cases j with
          | zero =>
            rw [List.getElem?_cons_zero] at hje
            have : a = s := by injection hje
            exact Or.inl (this ▸ List.mem_cons_self a seen)
          | succ j =>
            rw [List.getElem?_cons_succ] at hje
            exact Or.inr ⟨j, Nat.lt_of_succ_lt_succ hj, hje⟩
      by_cases hb : a ∈ seen
      · rw [assignFreshToDups_cons_dup supply a rest seen k hb,
          List.getElem?_cons_succ]
        exact ih (a :: seen) (k + 1) i s h hdup2
      · rw [assignFreshToDups_cons_new supply a rest seen k hb,
          List.getElem?_cons_succ]
        exact ih (a :: seen) k i s h hdup2

/-- The witness supply is injective (its strings have distinct lengths). -/
lemma wSupply_injective : Function.Injective wSupply := by
  intro a b h
  have h2 : List.replicate (a + 1) 'u' = List.replicate (b + 1) 'u' :=
    congrArg String.data h
  have h3 := congrArg List.length h2
  simp only [List.length_replicate] at h3
  omega

/-- The witness supply avoids every string not containing `u`. -/
lemma wSupply_ne (n : Nat) (s : String) (h : 'u' ∉ s.data) : wSupply n ≠ s := by
  intro he
  apply h
  rw [← he]
  show 'u' ∈ (wSupply n).data
  have hd : (wSupply n).data = List.replicate (n + 1) 'u' := rfl
  rw [hd]
  exact List.mem_replicate.mpr ⟨Nat.succ_ne_zero n, rfl⟩

/-- Stripping whitespace leaves the all-`u` witness strings unchanged. -/
lemma pyStrip_wSupply (n : Nat) : pyStrip (wSupply n) = wSupply n := by
  have hw : List.dropWhile Char.isWhitespace (List.replicate (n + 1) 'u') =
      List.replicate (n + 1) 'u' := by
    rw [List.replicate_succ, List.dropWhile_cons]
    simp
  show String.mk _ = _
  rw [show (wSupply n).data = List.replicate (n + 1) 'u' from rfl]
  rw [hw, List.reverse_replicate, hw, List.reverse_replicate]
  rfl

/-- The witness supply is never blank. -/
lemma wSupply_nonblank (n : Nat) : isBlankId (wSupply n) = false := by
  unfold isBlankId
  rw [pyStrip_wSupply]
  exact beq_eq_false_iff_ne.mpr (wSupply_ne n "" (by decide))

/-- The witness supply avoids the normalized IDs of the fixture column
`["a", "", "a", "nan"]`. -/
lemma wSupply_fresh_fixture :
    ∀ m, wSupply m ∉ (["a", "", "a", "nan"].map normalizeIdCell) := by
  intro m hmem
  have hmap : ["a", "", "a", "nan"].map normalizeIdCell = ["a", "", "a", ""] := by
    decide
  rw [hmap] at hmem
  rcases List.mem_cons.mp hmem with h1 | hmem
  · exact wSupply_ne m "a" (by decide) h1
  rcases List.mem_cons.mp hmem with h2 | hmem
  · exact wSupply_ne m "" (by decide) h2
  rcases List.mem_cons.mp hmem with h3 | hmem
  · exact wSupply_ne m "a" (by decide) h3
  rcases List.mem_cons.mp hmem with h4 | hmem
  · exact wSupply_ne m "" (by decide) h4
  · simp at hmem

/-- C8 counterexample: the literal ID `"nan"` is a non-blank first
occurrence, yet `_normalize_df`'s ID step replaces it with a fresh
identifier instead of keeping it (the `replace({"nan": "", "None": ""})`
pass folds it to blank). -/
theorem C8_counterexample :
    normalize_ids wSupply ["nan"] = ["u"] ∧ isBlankId "nan" = false ∧
    ("nan" : String) ≠ "" ∧ ("u" : String) ≠ "nan" := by
  decide

/-- C8 (amended): provided the fresh-identifier supply is injective,
never blank, and avoids the normalized input IDs (the `uuid4` contract),
the ID column after `_normalize_df`'s ID step keeps its length, consists
of non-blank, non-empty and pairwise distinct IDs; a first occurrence of
a non-blank ID other than the literals `"nan"`/`"None"` keeps its
original ID, while blank or `"nan"`/`"None"` cells and later duplicate
occurrences receive fresh identifiers. -/
theorem C8_theorem (ids : List String) (supply : Nat → String)
    (hinj : Function.Injective supply)
    (hfresh : ∀ n, supply n ∉ ids.map normalizeIdCell)
    (hnb : ∀ n, isBlankId (supply n) = false) :
    (normalize_ids supply ids).length = ids.length ∧
    (∀ x ∈ normalize_ids supply ids, isBlankId x = false ∧ x ≠ "") ∧
    (normalize_ids supply ids).Nodup ∧
    (∀ (i : Nat) (s : String), ids[i]? = some s → normalizeIdCell s = s →
      isBlankId s = false →
      (∀ (j : Nat), j < i → ∀ t : String, ids[j]? = some t → normalizeIdCell t ≠ s) →
      (normalize_ids supply ids)[i]? = some s) ∧
    (∀ (i : Nat) (s : String), ids[i]? = some s →
      isBlankId (normalizeIdCell s) = true →
      ∃ m, (normalize_ids supply ids)[i]? = some (supply m)) ∧
    (∀ (i j : Nat) (s t : String), j < i → ids[j]? = some t → ids[i]? = some s →
      normalizeIdCell t = normalizeIdCell s →
      isBlankId (normalizeIdCell s) = false →
      ∃ m, (normalize_ids supply ids)[i]? = some (supply m)) := by
  have hout : normalize_ids supply ids =
      assignFreshToDups supply (fillBlanks supply (ids.map normalizeIdCell) 0).1
        [] (fillBlanks supply (ids.map normalizeIdCell) 0).2 := rfl
  have hfresh2 : ∀ j, (fillBlanks supply (ids.map normalizeIdCell) 0).2 ≤ j →
      supply j ∉ (fillBlanks supply (ids.map normalizeIdCell) 0).1 := by
    intro j hj hmem
    rcases fillBlanks_mem supply (ids.map normalizeIdCell) 0 (supply j) hmem with
      ⟨hin, _⟩ | ⟨m, _, hm2, he⟩
    · exact hfresh j hin
    · have : j = m := hinj he
      omega
  refine ⟨?_, ?_, ?_, ?_, ?_, ?_⟩
  · rw [hout, assignFreshToDups_length, fillBlanks_length, List.length_map]
  · intro x hx
    rw [hout] at hx
    have hbx : isBlankId x = false := by
      rcases assignFreshToDups_mem supply _ _ _ x hx with ⟨hin, _⟩ | ⟨j, _, he⟩
      · rcases fillBlanks_mem supply (ids.map normalizeIdCell) 0 x hin with
          ⟨_, hnbx⟩ | ⟨j, _, _, he⟩
        · exact hnbx
        · exact he ▸ hnb j
      · exact he ▸ hnb j
    refine ⟨hbx, ?_⟩
    intro he
    rw [he] at hbx
    exact absurd hbx (by decide)
  · rw [hout]
    exact assignFreshToDups_nodup supply hinj _ [] _ hfresh2
  · intro i s h hnorm hnbs hprev
    have h1 : (ids.map normalizeIdCell)[i]? = some s := by
      rw [List.getElem?_map, h]
      simp [hnorm]
    have h2 : (fillBlanks supply (ids.map normalizeIdCell) 0).1[i]? = some s :=
      fillBlanks_get supply (ids.map normalizeIdCell) 0 i s h1 hnbs
    rw [hout]
    refine assignFreshToDups_get supply _ [] _ i s h2 (by simp) ?_
    intro j hj he
    rcases fillBlanks_get_or supply (ids.map normalizeIdCell) 0 j with hcase | ⟨m, hm⟩
    · rw [hcase, List.getElem?_map] at he
      rcases Option.map_eq_some'.mp he with ⟨t, ht, hft⟩
      exact hprev j hj t ht hft
    · rw [hm] at he
      have hms : supply m = s := by injection he
      exact hfresh m (hms ▸ List.getElem?_mem h1)
  · intro i s h hblank
    have h1 : (ids.map normalizeIdCell)[i]? = some (normalizeIdCell s) := by
      rw [List.getElem?_map, h]
      rfl
    obtain ⟨m, hm⟩ :=
      fillBlanks_get_blank supply (ids.map normalizeIdCell) 0 i
        (normalizeIdCell s) h1 hblank
    rw [hout]
    rcases assignFreshToDups_get_or supply
        (fillBlanks supply (ids.map normalizeIdCell) 0).1 []
        (fillBlanks supply (ids.map normalizeIdCell) 0).2 i with hcase | ⟨m2, hm2⟩
    · exact ⟨m, by rw [hcase, hm]⟩
    · exact ⟨m2, hm2⟩
  · intro i j s t hji hj hi hnormeq hnb2
    have h1i : (ids.map normalizeIdCell)[i]? = some (normalizeIdCell s) := by
      rw [List.getElem?_map, hi]
      rfl
    have h1j : (ids.map normalizeIdCell)[j]? = some (normalizeIdCell s) := by
      rw [List.getElem?_map, hj]
      rw [show Option.map normalizeIdCell (some t) = some (normalizeIdCell t) from rfl]
      rw [hnormeq]
    have p1i : (fillBlanks supply (ids.map normalizeIdCell) 0).1[i]? =
        some (normalizeIdCell s) :=
      fillBlanks_get supply (ids.map normalizeIdCell) 0 i (normalizeIdCell s) h1i hnb2
    have p1j : (fillBlanks supply (ids.map normalizeIdCell) 0).1[j]? =
        some (normalizeIdCell s) :=
      fillBlanks_get supply (ids.map normalizeIdCell) 0 j (normalizeIdCell s) h1j hnb2
    rw [hout]
    exact assignFreshToDups_get_dup supply _ [] _ i (normalizeIdCell s) p1i
      (Or.inr ⟨j, hji, p1j⟩)

/-- C8 witness: the theorem applied to the column `["a", "", "a", "nan"]`
with the concrete supply. -/
theorem C8_witness :
    (normalize_ids wSupply ["a", "", "a", "nan"]).length = 4 ∧
    (normalize_ids wSupply ["a", "", "a", "nan"]).Nodup ∧
    (normalize_ids wSupply ["a", "", "a", "nan"])[0]? = some "a" ∧
    (∃ m, (normalize_ids wSupply ["a", "", "a", "nan"])[1]? = some (wSupply m)) ∧
    (∃ m, (normalize_ids wSupply ["a", "", "a", "nan"])[2]? = some (wSupply m)) := by
  have h := C8_theorem ["a", "", "a", "nan"] wSupply wSupply_injective
    wSupply_fresh_fixture wSupply_nonblank
  refine ⟨h.1, h.2.2.1, ?_, ?_, ?_⟩
  · exact h.2.2.2.1 0 "a" rfl (by decide) (by decide) (by omega)
  · exact h.2.2.2.2.1 1 "" rfl (by decide)
  · exact h.2.2.2.2.2 2 0 "a" "a" (by omega) rfl rfl rfl (by decide)
